import Mathlib

/-!
Verification of the AnkiCompanionApp export pipeline.

The definitions below are a shallow embedding of the Python sources
`src/windows_app/anki_companion.py` (the GUI variant, whose export logic is
declared "same as export_with_media.py") and
`src/CardsCompanionApp/CardsCompanionApp/scripts/export_with_media.py`
(the CLI variant, the only place the deck-selection logic lives).
Strings are modelled by Lean `String` / `List Char`; the filesystem and the
AnkiConnect collaborator are modelled by explicit state and oracles.
-/

namespace AnkiCompanion

/-! ## Character classes used by `slugify`

`slugify` (anki_companion.py lines 51-54, export_with_media.py lines 34-38) is

    value = unicodedata.normalize('NFKD', value).encode('ascii', 'ignore').decode('ascii')
    value = re.sub(r'[^\w\s-]', '', value).strip().lower()
    return re.sub(r'[-\s]+', '_', value)

After the ascii step only code points < 128 remain, so the character classes
below are the restrictions of Python's `\w` and `\s` to ASCII (plus the
control characters 0x1c-0x1f, which Python counts as whitespace). -/

/-- True when the character survives `.encode('ascii','ignore')`. -/
def asciiOK (c : Char) : Bool := decide (c.toNat < 128)

/-- Python whitespace (`\s`, `str.strip`, `str.isspace`) restricted to ASCII. -/
def isPySpace (c : Char) : Bool :=
  c = ' ' || c = '\t' || c = '\n' || c = '\r' || c.toNat = 11 || c.toNat = 12 ||
  c.toNat = 28 || c.toNat = 29 || c.toNat = 30 || c.toNat = 31

/-- Python `\w` restricted to ASCII: letters, digits, underscore. -/
def isWordChar (c : Char) : Bool :=
  (65 ≤ c.toNat && c.toNat ≤ 90) || (97 ≤ c.toNat && c.toNat ≤ 122) ||
  (48 ≤ c.toNat && c.toNat ≤ 57) || c = '_'

/-- A character kept by `re.sub(r'[^\w\s-]', '', value)`. -/
def keepChar (c : Char) : Bool := isWordChar c || isPySpace c || c = '-'

/-- A character matched by `[-\s]` (collapsed to an underscore). -/
def isHS (c : Char) : Bool := isPySpace c || c = '-'

/-- ASCII lowercasing; `str.lower()` on the all-ASCII string reaching it. -/
def toLowerAscii (c : Char) : Char :=
  if 65 ≤ c.toNat && c.toNat ≤ 90 then Char.ofNat (c.toNat + 32) else c

/-- `str.strip()` from the left. -/
def stripLeft (l : List Char) : List Char := l.dropWhile isPySpace

/-- Python `str.strip()`: drop leading and trailing whitespace. -/
def stripList (l : List Char) : List Char :=
  ((stripLeft l).reverse.dropWhile isPySpace).reverse

/-- `re.sub(r'[-\s]+', '_', value)` as a left-to-right scan: each maximal run
of hyphen/whitespace characters becomes a single underscore.  The flag records
whether the previous character was part of such a run. -/
def collapseHS : Bool → List Char → List Char
  | _, [] => []
  | true, c :: rest =>
    if isHS c then collapseHS true rest else c :: collapseHS false rest
  | false, c :: rest =>
    if isHS c then '_' :: collapseHS true rest else c :: collapseHS false rest

/-- The whole `slugify` pipeline over a character list, parameterized by the
NFKD decomposition table `nfkd` (the program gets it from `unicodedata`). -/
def slugifyL (nfkd : Char → List Char) (l : List Char) : List Char :=
  collapseHS false
    ((stripList (((l.flatMap nfkd).filter asciiOK).filter keepChar)).map toLowerAscii)

/-- `slugify` (anki_companion.py lines 51-54), with the NFKD table abstracted. -/
def slugifyWith (nfkd : Char → List Char) (value : String) : String :=
  String.mk (slugifyL nfkd value.data)

/-- A finite excerpt of the Unicode NFKD decomposition table, enough for the
accented characters appearing in French deck names; every ASCII character is
NFKD-invariant, and characters outside the excerpt are dropped (they would be
removed by the `'ignore'` ascii step anyway). -/
def nfkdTable (c : Char) : List Char :=
  if c.toNat < 128 then [c]
  else
    match c with
    | 'é' => ['e', Char.ofNat 769]
    | 'è' => ['e', Char.ofNat 768]
    | 'ê' => ['e', Char.ofNat 770]
    | 'ë' => ['e', Char.ofNat 776]
    | 'à' => ['a', Char.ofNat 768]
    | 'â' => ['a', Char.ofNat 770]
    | 'ç' => ['c', Char.ofNat 807]
    | 'î' => ['i', Char.ofNat 770]
    | 'ï' => ['i', Char.ofNat 776]
    | 'ô' => ['o', Char.ofNat 770]
    | 'ù' => ['u', Char.ofNat 768]
    | 'û' => ['u', Char.ofNat 770]
    | 'ü' => ['u', Char.ofNat 776]
    | _ => []

/-- The concrete `slugify` used by the export pipeline. -/
def slugify (value : String) : String := slugifyWith nfkdTable value

/-- `nfkdTable` fixes every ASCII character, as the real NFKD does. -/
lemma nfkdTable_ascii : ∀ c : Char, c.toNat < 128 → nfkdTable c = [c] := by
  intro c h
  simp [nfkdTable, h]

/-! ## Characterization of `slugify` output -/

/-- A character that can appear in `slugify` output: ASCII, kept by the
filter, not hyphen/whitespace, and fixed by lowercasing. -/
def slugChar (c : Char) : Bool :=
  asciiOK c && keepChar c && !(isHS c) && (toLowerAscii c == c)

lemma slugChar_spec {c : Char} (h : slugChar c = true) :
    asciiOK c = true ∧ keepChar c = true ∧ isHS c = false ∧ toLowerAscii c = c := by
  simp only [slugChar, Bool.and_eq_true, Bool.not_eq_true', beq_iff_eq] at h
  exact ⟨h.1.1.1, h.1.1.2, h.1.2, h.2⟩

lemma lt128_of_asciiOK {c : Char} (h : asciiOK c = true) : c.toNat < 128 := by
  simpa [asciiOK] using h

/-- Transfer a decidable per-character fact proved over `Fin 128` to every
ASCII character. -/
lemma char_lt128_cases (Q : Char → Prop) [DecidablePred Q]
    (h : ∀ n : Fin 128, Q (Char.ofNat n.val)) :
    ∀ c : Char, c.toNat < 128 → Q c := by
  intro c hc
  have hq := h ⟨c.toNat, hc⟩
  rwa [Char.ofNat_toNat] at hq

lemma slugChar_toLower :
    ∀ c : Char, c.toNat < 128 → keepChar c = true →
      isHS (toLowerAscii c) = false → slugChar (toLowerAscii c) = true := by
  have h : ∀ n : Fin 128,
      keepChar (Char.ofNat n.val) = true →
      isHS (toLowerAscii (Char.ofNat n.val)) = false →
      slugChar (toLowerAscii (Char.ofNat n.val)) = true := by decide
  exact char_lt128_cases
    (fun c => keepChar c = true → isHS (toLowerAscii c) = false →
      slugChar (toLowerAscii c) = true) h

lemma mem_collapseHS {c : Char} :
    ∀ (b : Bool) (l : List Char), c ∈ collapseHS b l →
      c = '_' ∨ (c ∈ l ∧ isHS c = false) := by
  intro b l
  induction l generalizing b with
  | nil => intro h; cases b <;> simp [collapseHS] at h
  | cons d rest ih =>
    intro h
    by_cases hd : isHS d = true
    · cases b with
      | true =>
        rw [collapseHS, if_pos hd] at h
        rcases ih true h with h1 | h2
        · exact Or.inl h1
        · exact Or.inr ⟨List.mem_cons_of_mem _ h2.1, h2.2⟩
      | false =>
        rw [collapseHS, if_pos hd] at h
        rcases List.mem_cons.mp h with h1 | h1
        · exact Or.inl h1
        · rcases ih true h1 with h2 | h3
          · exact Or.inl h2
          · exact Or.inr ⟨List.mem_cons_of_mem _ h3.1, h3.2⟩
    · have h2 : c ∈ d :: collapseHS false rest := by
        cases b with
        | true => rw [collapseHS, if_neg hd] at h; exact h
        | false => rw [collapseHS, if_neg hd] at h; exact h
      rcases List.mem_cons.mp h2 with h1 | h1
      · subst h1
        exact Or.inr ⟨List.mem_cons_self _ _, Bool.eq_false_iff.mpr hd⟩
      · rcases ih false h1 with h3 | h4
        · exact Or.inl h3
        · exact Or.inr ⟨List.mem_cons_of_mem _ h4.1, h4.2⟩

lemma mem_stripList {c : Char} {l : List Char} (h : c ∈ stripList l) : c ∈ l := by
  unfold stripList stripLeft at h
  rw [List.mem_reverse] at h
  have h1 := (List.dropWhile_sublist _).subset h
  rw [List.mem_reverse] at h1
  exact (List.dropWhile_sublist _).subset h1

/-- Every character of `slugify` output is a `slugChar`. -/
lemma slugifyL_chars (nfkd : Char → List Char) (l : List Char) :
    ∀ c ∈ slugifyL nfkd l, slugChar c = true := by
  intro c hc
  unfold slugifyL at hc
  rcases mem_collapseHS false _ hc with h1 | ⟨h2, hHS⟩
  · subst h1; decide
  · rcases List.mem_map.mp h2 with ⟨d, hd, hdc⟩
    have hd2 := mem_stripList hd
    have hd3 := List.mem_filter.mp hd2
    have hd4 := List.mem_filter.mp hd3.1
    subst hdc
    exact slugChar_toLower d (lt128_of_asciiOK hd4.2) hd3.2 hHS

/-! ## `slugify` fixes strings made of `slugChar`s -/

lemma flatMap_fix (nfkd : Char → List Char)
    (hn : ∀ c : Char, c.toNat < 128 → nfkd c = [c]) :
    ∀ m : List Char, (∀ c ∈ m, c.toNat < 128) → m.flatMap nfkd = m := by
  intro m
  induction m with
  | nil => intro _; rfl
  | cons c rest ih =>
    intro h
    rw [List.flatMap_cons, hn c (h c (List.mem_cons_self _ _)),
      ih (fun d hd => h d (List.mem_cons_of_mem _ hd))]
    rfl

lemma dropWhile_fix (p : Char → Bool) :
    ∀ m : List Char, (∀ c ∈ m, p c = false) → m.dropWhile p = m := by
  intro m h
  cases m with
  | nil => rfl
  | cons c rest =>
    rw [List.dropWhile_cons, h c (List.mem_cons_self _ _)]
    simp

lemma stripList_fix (m : List Char) (h : ∀ c ∈ m, isPySpace c = false) :
    stripList m = m := by
  unfold stripList stripLeft
  rw [dropWhile_fix _ m h,
    dropWhile_fix _ m.reverse (fun c hc => h c (List.mem_reverse.mp hc)),
    List.reverse_reverse]

lemma map_fix (f : Char → Char) :
    ∀ m : List Char, (∀ c ∈ m, f c = c) → m.map f = m := by
  intro m
  induction m with
  | nil => intro _; rfl
  | cons c rest ih =>
    intro h
    rw [List.map_cons, h c (List.mem_cons_self _ _),
      ih (fun d hd => h d (List.mem_cons_of_mem _ hd))]

lemma collapseHS_fix :
    ∀ m : List Char, (∀ c ∈ m, isHS c = false) → collapseHS false m = m := by
  intro m
  induction m with
  | nil => intro _; rfl
  | cons c rest ih =>
    intro h
    have hc := h c (List.mem_cons_self _ _)
    rw [collapseHS, if_neg (by simp [hc]),
      ih (fun d hd => h d (List.mem_cons_of_mem _ hd))]

lemma slugifyL_fix (nfkd : Char → List Char)
    (hn : ∀ c : Char, c.toNat < 128 → nfkd c = [c])
    (m : List Char) (hm : ∀ c ∈ m, slugChar c = true) :
    slugifyL nfkd m = m := by
  have hAscii : ∀ c ∈ m, c.toNat < 128 :=
    fun c hc => lt128_of_asciiOK (slugChar_spec (hm c hc)).1
  have hKeep : ∀ c ∈ m, keepChar c = true :=
    fun c hc => (slugChar_spec (hm c hc)).2.1
  have hHS : ∀ c ∈ m, isHS c = false :=
    fun c hc => (slugChar_spec (hm c hc)).2.2.1
  have hLow : ∀ c ∈ m, toLowerAscii c = c :=
    fun c hc => (slugChar_spec (hm c hc)).2.2.2
  have hSpace : ∀ c ∈ m, isPySpace c = false := by
    intro c hc
    have := hHS c hc
    simp only [isHS, Bool.or_eq_false_iff] at this
    exact this.1
  have e1 : m.flatMap nfkd = m := flatMap_fix nfkd hn m hAscii
  have e2 : m.filter asciiOK = m :=
    List.filter_eq_self.mpr (fun c hc => by simpa [asciiOK] using hAscii c hc)
  have e3 : m.filter keepChar = m := List.filter_eq_self.mpr hKeep
  have e4 : stripList m = m := stripList_fix m hSpace
  have e5 : m.map toLowerAscii = m := map_fix _ m hLow
  have e6 : collapseHS false m = m := collapseHS_fix m hHS
  unfold slugifyL
  rw [e1, e2, e3, e4, e5, e6]

/-! ## Paths and deck-name splitting -/

/-- `os.path.join` for relative components, with the POSIX separator. -/
def pathJoin (a b : String) : String := a ++ "/" ++ b

/-- Python `str.split(sep)` for a nonempty separator: split on each
non-overlapping occurrence, left to right.  `acc` holds the current segment
reversed; the fuel bounds the recursion (`l.length + 1` always suffices,
since every step consumes at least one character). -/
def splitSepAux (sep : List Char) : Nat → List Char → List Char → List (List Char)
  | 0, acc, l => [acc.reverse ++ l]
  | _ + 1, acc, [] => [acc.reverse]
  | fuel + 1, acc, c :: rest =>
    if List.isPrefixOf sep (c :: rest) then
      acc.reverse :: splitSepAux sep fuel [] ((c :: rest).drop sep.length)
    else
      splitSepAux sep fuel (c :: acc) rest

/-- Python `str.split(sep)` (nonempty `sep`). -/
def splitSep (sep : List Char) (l : List Char) : List (List Char) :=
  splitSepAux sep (l.length + 1) [] l

/-- The deck hierarchy separator `"::"`. -/
def hierSep : List Char := [':', ':']

/-- `slugify(deck_name.split("::")[-1])` — the media subfolder of a deck
(anki_companion.py line 101). -/
def mediaSubfolderOf (deck_name : String) : String :=
  slugify (String.mk ((splitSep hierSep deck_name.data).getLastD []))

/-- The category directory and CSV base name computed by `export_deck`
(anki_companion.py lines 119-125, export_with_media.py lines 113-119):

    parts = deck_name.split("::")
    if len(parts) == 1:
        matiere = "divers"
        safe_filename = slugify(parts[0])
    else:
        matiere = slugify(parts[0])
        safe_filename = "_".join([slugify(p) for p in parts[1:]])

The `[]` branch is unreachable: `split` never returns an empty list. -/
def deckCsvParts (deck_name : String) : String × String :=
  match splitSep hierSep deck_name.data with
  | [] => ("divers", "")
  | [only] => ("divers", slugify (String.mk only))
  | p :: rest =>
    (slugify (String.mk p),
     String.intercalate "_" (rest.map (fun q => slugify (String.mk q))))

/-! ## Filesystem and collaborator models -/

/-- The filesystem visible to the exporter: which directories exist and what
each file contains. -/
structure FS where
  dirExists : String → Bool
  fileContent : String → Option String

/-- `os.makedirs(d, exist_ok=True)` when it succeeds. -/
def mkdirFS (d : String) (fs : FS) : FS :=
  { fs with dirExists := fun p => p == d || fs.dirExists p }

/-- Writing (or truncating to) content `c` at path `p`. -/
def setFile (p c : String) (fs : FS) : FS :=
  { fs with fileContent := fun q => if q == p then some c else fs.fileContent q }

/-- The empty filesystem. -/
def fsEmpty : FS := ⟨fun _ => false, fun _ => none⟩

/-- Outcome of the `retrieveMediaFile` AnkiConnect call: `missing` covers a
transport failure, an error payload, a null and an empty result (all falsy in
the Python guards); `payload data` is a successful non-empty response, with
`data` the already base64-decoded bytes. -/
inductive MediaResp where
  | missing
  | payload (data : String)

/-- Outcome of the local save of a fetched media file: `saved` — decode and
write succeed; `noSave` — base64 decoding or `open` raises, nothing written;
`partWrite w` — `open` truncated the file but the write failed midway,
leaving content `w`. -/
inductive SaveOutcome where
  | saved
  | noSave
  | partWrite (written : String)

/-- Result of one Media Fetcher invocation: the boolean the function returns,
the filesystem afterwards, and whether a network call was made. -/
structure FetchResult where
  ok : Bool
  fs : FS
  netCall : Bool

/-- `retrieve_media_from_anki` (anki_companion.py lines 57-79,
export_with_media.py lines 41-71):

    target_dir = os.path.join(media_base_dir, media_subfolder)
    os.makedirs(target_dir, exist_ok=True)
    target_path = os.path.join(target_dir, filename)
    if os.path.exists(target_path): return True
    result = anki_request("retrieveMediaFile", filename=filename)   # network
    if not result: return False
    try: write base64-decoded bytes to target_path; return True
    except: return False

`resp` and `save` are the oracle outcomes for the (at most one) network call
and save attempt of this invocation. -/
def retrieve_media_from_anki (filename media_subfolder media_base_dir : String)
    (resp : MediaResp) (save : SaveOutcome) (fs : FS) : FetchResult :=
  let target_dir := pathJoin media_base_dir media_subfolder
  let fs1 := mkdirFS target_dir fs
  let target_path := pathJoin target_dir filename
  if (fs1.fileContent target_path).isSome then ⟨true, fs1, false⟩
  else
    match resp with
    | .missing => ⟨false, fs1, true⟩
    | .payload data =>
      match save with
      | .saved => ⟨true, setFile target_path data fs1, true⟩
      | .noSave => ⟨false, fs1, true⟩
      | .partWrite w => ⟨false, setFile target_path w fs1, true⟩

/-! ## The image regex scan

`image_pattern = r'src=["\x27]([^"\x27]+\.(jpg|jpeg|png|gif|svg|webp))["\x27]'`
matched with `re.findall(..., re.IGNORECASE)` (anki_companion.py lines 84-85).
Since the captured group excludes quote characters, a match at a position is:
the literal `src=` (case-insensitive), an opening quote, a maximal nonempty
run of non-quote characters that ends in a dot plus one of the extensions
(case-insensitive) with a nonempty stem, and a closing quote — necessarily
the first quote character after the opening one.  `re.findall` scans left to
right and resumes after each match. -/

/-- The double-quote character. -/
def dqC : Char := Char.ofNat 34

/-- The single-quote character. -/
def sqC : Char := Char.ofNat 39

/-- A quote character (either delimiter accepted by the pattern). -/
def isQuoteC (c : Char) : Bool := c = dqC || c = sqC

/-- The alternation of image extensions, lowercase. -/
def imageExtList : List (List Char) :=
  [['j','p','g'], ['j','p','e','g'], ['p','n','g'],
   ['g','i','f'], ['s','v','g'], ['w','e','b','p']]

/-- `content` can be the capture `[^"\x27]+\.(ext)`: it ends case-insensitively
in a dot plus an extension, preceded by at least one character. -/
def hasImageExt (content : List Char) : Bool :=
  imageExtList.any (fun e =>
    decide (e.length + 2 ≤ content.length) &&
    List.isSuffixOf ('.' :: e) (content.map toLowerAscii))

/-- Try to match the image pattern at the head of `l`; on success return the
captured filename and the characters after the closing quote. -/
def tryMatchAt (l : List Char) : Option (List Char × List Char) :=
  match l with
  | a :: b :: c :: d :: q :: rest =>
    if (toLowerAscii a == 's') && (toLowerAscii b == 'r') &&
       (toLowerAscii c == 'c') && (d == '=') && isQuoteC q then
      let content := rest.takeWhile (fun ch => !(isQuoteC ch))
      match rest.drop content.length with
      | q2 :: rest2 =>
        if isQuoteC q2 && hasImageExt content then some (content, rest2) else none
      | [] => none
    else none
  | _ => none

/-- Left-to-right scan collecting all matches; the fuel bounds the recursion
(`l.length + 1` always suffices, every step consumes at least one character). -/
def scanMatches : Nat → List Char → List (List Char)
  | 0, _ => []
  | _ + 1, [] => []
  | fuel + 1, c :: rest =>
    match tryMatchAt (c :: rest) with
    | some (fname, rest2) => fname :: scanMatches fuel rest2
    | none => scanMatches fuel rest

/-- `re.findall(image_pattern, source_text, re.IGNORECASE)`, first capture
group of each match, in order. -/
def findallImages (s : String) : List String :=
  (scanMatches (s.data.length + 1) s.data).map String.mk

/-! ## Text replacement -/

/-- One step of Python `str.replace`: replace all non-overlapping occurrences
of `pat` (nonempty) left to right; fuel bounds the recursion. -/
def replaceAllAux (pat rep : List Char) : Nat → List Char → List Char
  | 0, l => l
  | _ + 1, [] => []
  | fuel + 1, c :: rest =>
    if List.isPrefixOf pat (c :: rest) then
      rep ++ replaceAllAux pat rep fuel ((c :: rest).drop pat.length)
    else
      c :: replaceAllAux pat rep fuel rest

/-- Python `str.replace(pat, rep)` for nonempty `pat`. -/
def replaceAllS (s pat rep : String) : String :=
  String.mk (replaceAllAux pat.data rep.data (s.data.length + 1) s.data)

/-- The double-quote as a string. -/
def dq : String := String.mk [dqC]

/-- The single-quote as a string. -/
def sq : String := String.mk [sqC]

/-- The literal `src=<q><fn><q>`. -/
def srcAttr (q fn : String) : String := "src=" ++ q ++ fn ++ q

/-- `f"../media/{media_subfolder}/{filename}"` (anki_companion.py line 90). -/
def mediaRelPath (sub fn : String) : String := "../media/" ++ sub ++ "/" ++ fn

/-- The two `str.replace` calls done for one matched filename
(anki_companion.py lines 91-92): the double-quoted occurrences keep double
quotes, the single-quoted occurrences keep single quotes. -/
def rewriteStep (media_subfolder : String) (t filename : String) : String :=
  let np := mediaRelPath media_subfolder filename
  replaceAllS (replaceAllS t (srcAttr dq filename) (srcAttr dq np))
    (srcAttr sq filename) (srcAttr sq np)

/-- The loop body of `process_media_in_text` over the list of matches,
threading the filesystem through the media fetches. -/
def processImages (sub base : String) (oracle : String → MediaResp × SaveOutcome) :
    List String → String → FS → String × FS
  | [], t, fs => (t, fs)
  | filename :: ms, t, fs =>
    let ro := oracle filename
    let r := retrieve_media_from_anki filename sub base ro.1 ro.2 fs
    processImages sub base oracle ms (rewriteStep sub t filename) r.fs

/-- `process_media_in_text` (anki_companion.py lines 82-94,
export_with_media.py lines 74-94). -/
def process_media_in_text (source_text media_subfolder media_base_dir : String)
    (oracle : String → MediaResp × SaveOutcome) (fs : FS) : String × FS :=
  processImages media_subfolder media_base_dir oracle
    (findallImages source_text) source_text fs

/-- The pure text transformation performed by `process_media_in_text`
(the rewriting does not consult the fetch results). -/
def rewriteText (source_text media_subfolder : String) : String :=
  (findallImages source_text).foldl (rewriteStep media_subfolder) source_text

/-! ## CSV serialization

`csv.writer(f, delimiter=";", quoting=csv.QUOTE_MINIMAL)` on a file opened
with `encoding="utf-8-sig", newline=""` (anki_companion.py lines 133-134):
a field is quoted only when it contains the delimiter, the quote character or
a line-terminator character; quotes are doubled; rows end in CRLF; the codec
emits a byte-order mark before the first character written. -/

/-- True when QUOTE_MINIMAL must quote the field. -/
def needsQuote (s : String) : Bool :=
  s.data.any (fun c => c = ';' || c = dqC || c = '\r' || c = '\n')

/-- One serialized CSV field. -/
def csvField (s : String) : String :=
  if needsQuote s then dq ++ replaceAllS s dq (dq ++ dq) ++ dq else s

/-- One serialized CSV row. -/
def csvRow (r : List String) : String :=
  String.intercalate ";" (r.map csvField) ++ "\r\n"

/-- `" ".join(note["tags"])` (anki_companion.py line 143). -/
def joinSpace (tags : List String) : String := String.intercalate " " tags

/-- The byte-order mark U+FEFF emitted by the `utf-8-sig` codec. -/
def bomS : String := String.mk [Char.ofNat 65279]

/-- The on-disk content of the CSV file: the BOM precedes the first written
character, so a file with no rows stays empty. -/
def contentWithBom (content : String) : String :=
  if content = "" then "" else bomS ++ content

/-! ## Notes, the collaborator environment, and `export_deck` -/

/-- One entry of a note's `fields` mapping: `none` models a field record
lacking the `"value"` key (a malformed note makes `field_obj["value"]`
raise `KeyError`). -/
structure FieldObj where
  value : Option String
deriving DecidableEq

/-- One record of the `notesInfo` response: the insertion-ordered `fields`
mapping and the tag list. -/
structure NoteInfo where
  fields : List (String × FieldObj)
  tags : List String
deriving DecidableEq

/-- An AnkiConnect response: `error` models a raised/failed request, `ok`
a successful result. -/
inductive AnkiResp (α : Type) where
  | error
  | ok (result : α)

/-- The environment of one `export_deck` call: the collaborator's responses,
the filesystem failure switches, the HTML-entity decoder and the media
oracle.  `mkdirFails` — `os.makedirs(matiere_dir)` raises; `openFails` —
`open(csv_path, "w")` raises. -/
structure DeckEnv where
  findNotesResp : AnkiResp (List Nat)
  notesInfoResp : AnkiResp (List NoteInfo)
  mkdirFails : Bool
  openFails : Bool
  unescape : String → String
  oracle : String → MediaResp × SaveOutcome

/-- A note whose every field record has a `"value"` key. -/
def noteOk (n : NoteInfo) : Bool := n.fields.all (fun f => f.2.value.isSome)

/-- The inner field loop of `export_deck` (anki_companion.py lines 138-142):
decode entities, rewrite media, collect one column per field in order.
Returns `none` when some field record is malformed — the `KeyError` that
aborts the enclosing `try`.  Media fetched before the failure stays fetched. -/
def processFields (sub base : String) (env : DeckEnv) :
    List (String × FieldObj) → FS → Option (List String) × FS
  | [], fs => (some [], fs)
  | f :: rest, fs =>
    match f.2.value with
    | none => (none, fs)
    | some raw =>
      let r := process_media_in_text (env.unescape raw) sub base env.oracle fs
      match processFields sub base env rest r.2 with
      | (none, fs2) => (none, fs2)
      | (some vs, fs2) => (some (r.1 :: vs), fs2)

/-- The note loop of `export_deck` (anki_companion.py lines 135-146).
Returns (all notes written?, count, concatenated rows written, filesystem).
On a failure the rows already written stay in the content (they were flushed
when the `with` block closed the file). -/
def writeNotes (sub base : String) (env : DeckEnv) :
    List NoteInfo → FS → Bool × Nat × String × FS
  | [], fs => (true, 0, "", fs)
  | note :: rest, fs =>
    match processFields sub base env note.fields fs with
    | (none, fs1) => (false, 0, "", fs1)
    | (some vals, fs1) =>
      let row := csvRow (vals ++ [joinSpace note.tags])
      let r := writeNotes sub base env rest fs1
      (r.1, r.2.1 + 1, row ++ r.2.2.1, r.2.2.2)

/-- The result of `export_deck`: `raised` — an exception escaped the function
(only `os.makedirs(matiere_dir)` can do that); `count n` — it returned `n`. -/
inductive DeckResult where
  | raised
  | count (n : Nat)
deriving DecidableEq

/-- `export_deck` (anki_companion.py lines 97-152; export_with_media.py
lines 97-152 is the same logic modulo the empty-ids early return). -/
def export_deck (deck_name output_base_dir media_base_dir : String)
    (env : DeckEnv) (fs : FS) : DeckResult × FS :=
  let media_subfolder := mediaSubfolderOf deck_name
  match env.findNotesResp with
  | .error => (.count 0, fs)
  | .ok note_ids =>
    if note_ids.isEmpty then (.count 0, fs)
    else
      match env.notesInfoResp with
      | .error => (.count 0, fs)
      | .ok notes =>
        let mf := deckCsvParts deck_name
        let matiere_dir := pathJoin output_base_dir mf.1
        if env.mkdirFails then (.raised, fs)
        else
          let fs1 := mkdirFS matiere_dir fs
          let csv_path := pathJoin matiere_dir (mf.2 ++ ".csv")
          if env.openFails then (.count 0, fs1)
          else
            let r := writeNotes media_subfolder media_base_dir env notes fs1
            let fs2 := setFile csv_path (contentWithBom r.2.2.1) r.2.2.2
            if r.1 then (.count r.2.1, fs2) else (.count 0, fs2)

/-- The CSV path `export_deck` writes for a deck. -/
def deckCsvPath (deck_name output_base_dir : String) : String :=
  pathJoin (pathJoin output_base_dir (deckCsvParts deck_name).1)
    ((deckCsvParts deck_name).2 ++ ".csv")

/-- The export loop of `main` (export_with_media.py lines 206-208) and of
`_do_export` (anki_companion.py lines 350-352): one `export_deck` per deck,
summing counts.  `none` models the run dying on an exception raised out of
`export_deck` (the loop has no handler). -/
def runDecks (output_base_dir media_base_dir : String) (envOf : String → DeckEnv) :
    List String → FS → Option Nat × FS
  | [], fs => (some 0, fs)
  | d :: rest, fs =>
    match export_deck d output_base_dir media_base_dir (envOf d) fs with
    | (.raised, fs1) => (none, fs1)
    | (.count n, fs1) =>
      match runDecks output_base_dir media_base_dir envOf rest fs1 with
      | (none, fs2) => (none, fs2)
      | (some t, fs2) => (some (n + t), fs2)

/-! ## Deck selection (export_with_media.py `main`, lines 184-198) -/

/-- An ASCII digit. -/
def isDigitB (c : Char) : Bool := 48 ≤ c.toNat && c.toNat ≤ 57

/-- The numeric value of a digit run, or `none` when empty or non-digit. -/
def digitsToNat (l : List Char) : Option Nat :=
  if l = [] then none
  else if l.all isDigitB then
    some (l.foldl (fun a c => a * 10 + (c.toNat - 48)) 0)
  else none

/-- Python `int(x)` on a stripped string: optional sign then digits
(digit-group underscores are not modelled).  `none` models `ValueError`. -/
def parsePyIntL (l : List Char) : Option Int :=
  match stripList l with
  | [] => none
  | c :: rest =>
    if c = '-' then (digitsToNat rest).map (fun n => -(n : Int))
    else if c = '+' then (digitsToNat rest).map (fun n => (n : Int))
    else (digitsToNat (c :: rest)).map (fun n => (n : Int))

/-- The deck-selection logic of `main` (export_with_media.py lines 184-198):

    if len(sys.argv) >= 3:
        selection = sys.argv[2].strip().lower()
        if selection == "all": target_decks = all_decks
        else:
            try:
                indices = [int(x.strip()) for x in selection.split(",")]
                target_decks = [all_decks[i] for i in indices if 0 <= i < len(all_decks)]
            except (ValueError, IndexError): sys.exit(1)
    else: target_decks = all_decks

`none` input models an absent argument; `none` output models the `exit(1)`
on a malformed selection. -/
def selectDecks (all_decks : List String) (selection : Option String) :
    Option (List String) :=
  match selection with
  | none => some all_decks
  | some sel =>
    let s := (stripList sel.data).map toLowerAscii
    if s = "all".data then some all_decks
    else
      match (splitSep [','] s).mapM parsePyIntL with
      | none => none
      | some indices =>
        some (indices.filterMap (fun i =>
          if 0 ≤ i && i < (all_decks.length : Int) then all_decks[i.toNat]? else none))

/-! ## Helper lemmas about the rewriter -/

lemma processImages_fst (sub base : String) (oracle : String → MediaResp × SaveOutcome) :
    ∀ (ms : List String) (t : String) (fs : FS),
      (processImages sub base oracle ms t fs).1 = ms.foldl (rewriteStep sub) t := by
  intro ms
  induction ms with
  | nil => intro t fs; rfl
  | cons m ms ih =>
    intro t fs
    simp only [processImages, List.foldl_cons]
    exact ih _ _

/-- The text produced by `process_media_in_text` is the pure rewrite: it does
not depend on the filesystem or on the fetch outcomes. -/
lemma process_media_text (t sub base : String)
    (oracle : String → MediaResp × SaveOutcome) (fs : FS) :
    (process_media_in_text t sub base oracle fs).1 = rewriteText t sub :=
  processImages_fst sub base oracle (findallImages t) t fs

/-! ## Helper lemmas about the note loops -/

/-- The row `export_deck` writes for one well-formed note. -/
def rowOf (sub : String) (env : DeckEnv) (note : NoteInfo) : List String :=
  note.fields.map (fun f => rewriteText (env.unescape (f.2.value.getD "")) sub)
    ++ [joinSpace note.tags]

/-- The concatenation of the serialized rows of a list of notes. -/
def rowsContent (sub : String) (env : DeckEnv) : List NoteInfo → String
  | [] => ""
  | n :: rest => csvRow (rowOf sub env n) ++ rowsContent sub env rest

lemma processFields_fst_some_of (sub base : String) (env : DeckEnv) :
    ∀ (fields : List (String × FieldObj)) (fs : FS),
      (∀ f ∈ fields, f.2.value.isSome = true) →
      (processFields sub base env fields fs).1 =
        some (fields.map (fun f => rewriteText (env.unescape (f.2.value.getD "")) sub)) := by
  intro fields
  induction fields with
  | nil => intro fs _; rfl
  | cons f rest ih =>
    intro fs h
    obtain ⟨raw, hraw⟩ := Option.isSome_iff_exists.mp (h f (List.mem_cons_self _ _))
    have hrest := fun g hg => h g (List.mem_cons_of_mem _ hg)
    simp only [processFields, hraw]
    have ih2 := ih (process_media_in_text (env.unescape raw) sub base env.oracle fs).2 hrest
    rcases hp : processFields sub base env rest
        (process_media_in_text (env.unescape raw) sub base env.oracle fs).2 with ⟨o, fs2⟩
    rw [hp] at ih2
    simp only at ih2
    subst ih2
    simp only [List.map_cons, hraw, Option.getD_some, process_media_text]

lemma processFields_fst_none_of (sub base : String) (env : DeckEnv) :
    ∀ (fields : List (String × FieldObj)) (fs : FS),
      fields.all (fun f => f.2.value.isSome) = false →
      (processFields sub base env fields fs).1 = none := by
  intro fields
  induction fields with
  | nil => intro fs h; simp [List.all_nil] at h
  | cons f rest ih =>
    intro fs h
    rw [List.all_cons, Bool.and_eq_false_iff] at h
    rcases h with h | h
    · have hf : f.2.value = none := by
        cases hv : f.2.value with
        | none => rfl
        | some v => rw [hv] at h; simp at h
      simp only [processFields, hf]
    · cases hv : f.2.value with
      | none => simp only [processFields, hv]
      | some raw =>
        simp only [processFields, hv]
        have ih2 := ih (process_media_in_text (env.unescape raw) sub base env.oracle fs).2 h
        rcases hp : processFields sub base env rest
            (process_media_in_text (env.unescape raw) sub base env.oracle fs).2 with ⟨o, fs2⟩
        rw [hp] at ih2
        simp only at ih2
        subst ih2
        rfl

lemma processFields_some_imp (sub base : String) (env : DeckEnv) :
    ∀ (fields : List (String × FieldObj)) (fs : FS),
      ((processFields sub base env fields fs).1).isSome = true →
      fields.all (fun f => f.2.value.isSome) = true := by
  intro fields fs h
  by_contra hc
  rw [processFields_fst_none_of sub base env fields fs (Bool.eq_false_iff.mpr hc)] at h
  simp at h

lemma writeNotes_ok (sub base : String) (env : DeckEnv) :
    ∀ (notes : List NoteInfo) (fs : FS), (∀ n ∈ notes, noteOk n = true) →
      (writeNotes sub base env notes fs).1 = true ∧
      (writeNotes sub base env notes fs).2.1 = notes.length ∧
      (writeNotes sub base env notes fs).2.2.1 = rowsContent sub env notes := by
  intro notes
  induction notes with
  | nil => intro fs _; exact ⟨rfl, rfl, rfl⟩
  | cons note rest ih =>
    intro fs h
    have hnote : ∀ f ∈ note.fields, f.2.value.isSome = true := by
      have := h note (List.mem_cons_self _ _)
      simpa [noteOk, List.all_eq_true] using this
    have hsome := processFields_fst_some_of sub base env note.fields fs hnote
    rcases hp : processFields sub base env note.fields fs with ⟨o, fs1⟩
    rw [hp] at hsome
    simp only at hsome
    subst hsome
    have ih2 := ih fs1 (fun n hn => h n (List.mem_cons_of_mem _ hn))
    simp only [writeNotes, hp, rowsContent, rowOf]
    exact ⟨ih2.1, by rw [ih2.2.1]; rfl, by rw [ih2.2.2]⟩

lemma writeNotes_fail (sub base : String) (env : DeckEnv)
    (bad : NoteInfo) (hbad : noteOk bad = false) (tail : List NoteInfo) :
    ∀ (good : List NoteInfo) (fs : FS), (∀ n ∈ good, noteOk n = true) →
      (writeNotes sub base env (good ++ bad :: tail) fs).1 = false ∧
      (writeNotes sub base env (good ++ bad :: tail) fs).2.2.1 =
        rowsContent sub env good := by
  intro good
  induction good with
  | nil =>
    intro fs _
    have hnone := processFields_fst_none_of sub base env bad.fields fs
      (by simpa [noteOk] using hbad)
    rcases hp : processFields sub base env bad.fields fs with ⟨o, fs1⟩
    rw [hp] at hnone
    simp only at hnone
    subst hnone
    simp only [List.nil_append, writeNotes, hp, rowsContent]
    exact ⟨trivial, trivial⟩
  | cons g good ih =>
    intro fs h
    have hg : ∀ f ∈ g.fields, f.2.value.isSome = true := by
      have := h g (List.mem_cons_self _ _)
      simpa [noteOk, List.all_eq_true] using this
    have hsome := processFields_fst_some_of sub base env g.fields fs hg
    rcases hp : processFields sub base env g.fields fs with ⟨o, fs1⟩
    rw [hp] at hsome
    simp only at hsome
    subst hsome
    have ih2 := ih fs1 (fun n hn => h n (List.mem_cons_of_mem _ hn))
    simp only [List.cons_append, writeNotes, hp, rowsContent, rowOf, List.append_eq]
    exact ⟨ih2.1, by rw [ih2.2]⟩

lemma writeNotes_true_imp (sub base : String) (env : DeckEnv) :
    ∀ (notes : List NoteInfo) (fs : FS),
      (writeNotes sub base env notes fs).1 = true → ∀ n ∈ notes, noteOk n = true := by
  intro notes
  induction notes with
  | nil => intro fs _ n hn; simp at hn
  | cons note rest ih =>
    intro fs h n hn
    rcases hp : processFields sub base env note.fields fs with ⟨o, fs1⟩
    cases o with
    | none => rw [writeNotes, hp] at h; simp at h
    | some vals =>
      rw [writeNotes, hp] at h
      simp only at h
      rcases List.mem_cons.mp hn with h1 | h1
      · subst h1
        have : ((processFields sub base env n.fields fs).1).isSome = true := by
          rw [hp]; rfl
        have := processFields_some_imp sub base env n.fields fs this
        simpa [noteOk] using this
      · exact ih fs1 h n h1

/-! ## Helper lemmas about `export_deck` and the driver loop -/

lemma export_deck_run (deck out media : String) (env : DeckEnv) (fs : FS)
    (ids : List Nat) (notes : List NoteInfo)
    (h1 : env.findNotesResp = .ok ids) (h2 : ids ≠ [])
    (h3 : env.notesInfoResp = .ok notes)
    (h4 : env.mkdirFails = false) (h5 : env.openFails = false) :
    export_deck deck out media env fs =
      (let fs1 := mkdirFS (pathJoin out (deckCsvParts deck).1) fs
       let r := writeNotes (mediaSubfolderOf deck) media env notes fs1
       let fs2 := setFile (deckCsvPath deck out) (contentWithBom r.2.2.1) r.2.2.2
       if r.1 then (DeckResult.count r.2.1, fs2) else (DeckResult.count 0, fs2)) := by
  cases ids with
  | nil => exact absurd rfl h2
  | cons i is =>
    simp only [export_deck, h1, h3, h4, h5, List.isEmpty_cons, deckCsvPath]
    rfl

lemma export_deck_open_fail (deck out media : String) (env : DeckEnv) (fs : FS)
    (ids : List Nat) (notes : List NoteInfo)
    (h1 : env.findNotesResp = .ok ids) (h2 : ids ≠ [])
    (h3 : env.notesInfoResp = .ok notes)
    (h4 : env.mkdirFails = false) (h5 : env.openFails = true) :
    export_deck deck out media env fs =
      (DeckResult.count 0, mkdirFS (pathJoin out (deckCsvParts deck).1) fs) := by
  cases ids with
  | nil => exact absurd rfl h2
  | cons i is =>
    simp only [export_deck, h1, h3, h4, h5, List.isEmpty_cons]
    rfl

lemma export_deck_mkdir_fail (deck out media : String) (env : DeckEnv) (fs : FS)
    (ids : List Nat) (notes : List NoteInfo)
    (h1 : env.findNotesResp = .ok ids) (h2 : ids ≠ [])
    (h3 : env.notesInfoResp = .ok notes)
    (h4 : env.mkdirFails = true) :
    export_deck deck out media env fs = (DeckResult.raised, fs) := by
  cases ids with
  | nil => exact absurd rfl h2
  | cons i is =>
    simp only [export_deck, h1, h3, h4, List.isEmpty_cons]
    rfl

/-- `export_deck` only raises through `os.makedirs(matiere_dir)`. -/
lemma export_deck_no_raise (deck out media : String) (env : DeckEnv) (fs : FS)
    (h : env.mkdirFails = false) :
    ∃ n fs1, export_deck deck out media env fs = (DeckResult.count n, fs1) := by
  cases h1 : env.findNotesResp with
  | error => exact ⟨0, fs, by simp [export_deck, h1]⟩
  | ok ids =>
    by_cases h2 : ids.isEmpty = true
    · exact ⟨0, fs, by simp [export_deck, h1, h2]⟩
    · have h2n : ids ≠ [] := by
        cases ids with
        | nil => simp at h2
        | cons i is => simp
      cases h3 : env.notesInfoResp with
      | error =>
        refine ⟨0, fs, ?_⟩
        cases ids with
        | nil => exact absurd rfl h2n
        | cons i is => simp [export_deck, h1, h3]
      | ok notes =>
        cases h5 : env.openFails with
        | true =>
          exact ⟨0, _, export_deck_open_fail deck out media env fs ids notes h1 h2n h3 h h5⟩
        | false =>
          rw [export_deck_run deck out media env fs ids notes h1 h2n h3 h h5]
          simp only
          by_cases hw : (writeNotes (mediaSubfolderOf deck) media env notes
              (mkdirFS (pathJoin out (deckCsvParts deck).1) fs)).1 = true
          · rw [if_pos hw]; exact ⟨_, _, rfl⟩
          · rw [if_neg hw]; exact ⟨_, _, rfl⟩

lemma runDecks_some (out media : String) (envOf : String → DeckEnv) :
    ∀ (decks : List String) (fs : FS),
      (∀ d ∈ decks, (envOf d).mkdirFails = false) →
      ((runDecks out media envOf decks fs).1).isSome = true := by
  intro decks
  induction decks with
  | nil => intro fs _; rfl
  | cons d rest ih =>
    intro fs h
    obtain ⟨n, fs1, he⟩ :=
      export_deck_no_raise d out media (envOf d) fs (h d (List.mem_cons_self _ _))
    have ih2 := ih fs1 (fun x hx => h x (List.mem_cons_of_mem _ hx))
    rcases hr : runDecks out media envOf rest fs1 with ⟨o, fs2⟩
    rw [hr] at ih2
    cases o with
    | none => simp at ih2
    | some t => simp only [runDecks, he, hr]; rfl

/-! ## Helper lemmas about the media fetcher -/

/-- The file is cached: immediate success, no network call. -/
lemma retrieve_cached (fn sub base : String) (resp : MediaResp) (save : SaveOutcome)
    (fs : FS) (h : (fs.fileContent (pathJoin (pathJoin base sub) fn)).isSome = true) :
    retrieve_media_from_anki fn sub base resp save fs =
      ⟨true, mkdirFS (pathJoin base sub) fs, false⟩ := by
  unfold retrieve_media_from_anki
  simp only [mkdirFS] at h ⊢
  rw [if_pos h]

/-- A successful fetch leaves the file materialized at the target path. -/
lemma retrieve_ok_file (fn sub base : String) (resp : MediaResp) (save : SaveOutcome)
    (fs : FS) (h : (retrieve_media_from_anki fn sub base resp save fs).ok = true) :
    (((retrieve_media_from_anki fn sub base resp save fs).fs).fileContent
        (pathJoin (pathJoin base sub) fn)).isSome = true := by
  unfold retrieve_media_from_anki at h ⊢
  by_cases hc : ((mkdirFS (pathJoin base sub) fs).fileContent
      (pathJoin (pathJoin base sub) fn)).isSome = true
  · rw [if_pos hc]
    simpa [mkdirFS] using hc
  · rw [if_neg hc] at h ⊢
    cases resp with
    | missing => simp at h
    | payload data =>
      cases save with
      | saved => simp [setFile]
      | noSave => simp at h
      | partWrite w => simp at h

/-- The filesystem after a fetch: either only the directory was created, or
additionally some content was written at the target path. -/
lemma retrieve_fs_cases (fn sub base : String) (resp : MediaResp) (save : SaveOutcome)
    (fs : FS) :
    (retrieve_media_from_anki fn sub base resp save fs).fs =
        mkdirFS (pathJoin base sub) fs ∨
    ∃ w, (retrieve_media_from_anki fn sub base resp save fs).fs =
        setFile (pathJoin (pathJoin base sub) fn) w (mkdirFS (pathJoin base sub) fs) := by
  unfold retrieve_media_from_anki
  by_cases hc : ((mkdirFS (pathJoin base sub) fs).fileContent
      (pathJoin (pathJoin base sub) fn)).isSome = true
  · rw [if_pos hc]
    exact Or.inl rfl
  · rw [if_neg hc]
    cases resp with
    | missing => exact Or.inl rfl
    | payload data =>
      cases save with
      | saved => exact Or.inr ⟨data, rfl⟩
      | noSave => exact Or.inl rfl
      | partWrite w => exact Or.inr ⟨w, rfl⟩

/-- A fetch whose network call reported the file missing only creates the
directory. -/
lemma retrieve_fs_missing (fn sub base : String) (save : SaveOutcome) (fs : FS) :
    (retrieve_media_from_anki fn sub base MediaResp.missing save fs).fs =
      mkdirFS (pathJoin base sub) fs := by
  unfold retrieve_media_from_anki
  by_cases hc : ((mkdirFS (pathJoin base sub) fs).fileContent
      (pathJoin (pathJoin base sub) fn)).isSome = true
  · rw [if_pos hc]
  · rw [if_neg hc]

/-! ## Concrete scenarios used by witnesses and counterexamples -/

/-- A collaborator that reports every media file missing. -/
def oracleMissing : String → MediaResp × SaveOutcome :=
  fun _ => (MediaResp.missing, SaveOutcome.saved)

/-- The note of the spec's CSV row-integrity example. -/
def noteQ : NoteInfo :=
  ⟨[("Front", ⟨some "<b>Q</b>"⟩), ("Back", ⟨some "A"⟩)], ["chapter1", "review"]⟩

/-- A well-formed one-field note. -/
def noteGood1 : NoteInfo := ⟨[("Front", ⟨some "Q1"⟩)], []⟩

/-- A malformed note: its field record has no value key. -/
def noteBad : NoteInfo := ⟨[("Front", ⟨none⟩)], []⟩

/-- Another well-formed one-field note. -/
def noteGood2 : NoteInfo := ⟨[("Front", ⟨some "Q2"⟩)], []⟩

/-- A deck whose second of three notes is malformed. -/
def envC3 : DeckEnv :=
  ⟨.ok [1, 2, 3], .ok [noteGood1, noteBad, noteGood2], false, false, id, oracleMissing⟩

/-- A healthy deck holding the spec's example note. -/
def envC8 : DeckEnv := ⟨.ok [1], .ok [noteQ], false, false, id, oracleMissing⟩

/-- A deck whose CSV `open` fails. -/
def envOpen : DeckEnv := ⟨.ok [1], .ok [noteGood1], false, true, id, oracleMissing⟩

/-- A deck whose category-directory creation fails. -/
def envMkdir : DeckEnv := ⟨.ok [1], .ok [noteGood1], true, false, id, oracleMissing⟩

/-- A healthy deck. -/
def envGood : DeckEnv := ⟨.ok [1], .ok [noteGood1], false, false, id, oracleMissing⟩

/-- Two decks: "A" hits a directory-creation failure, "B" is healthy. -/
def envABMap : String → DeckEnv := fun d => if d = "A" then envMkdir else envGood

/-- A filesystem already holding `m/s/a.jpg`. -/
def fsWithA : FS := setFile (pathJoin (pathJoin "m" "s") "a.jpg") "X" fsEmpty

/-! ## C1 — deck CSV path derivation -/

/-- C1 counterexample: the claim predicts category `"uncategorized"` for the
separator-free deck name `"Vocabulary"`, but `export_deck` uses the fixed
fallback label `"divers"` (anki_companion.py line 121, export_with_media.py
line 115). -/
theorem C1_counterexample :
    deckCsvParts "Vocabulary" = ("divers", "vocabulary") ∧
    deckCsvParts "Vocabulary" ≠ ("uncategorized", "vocabulary") := by decide

/-- C1 (amended): splitting the deck name on `"::"`, a name with no separator
gets category `"divers"` (not `"uncategorized"`) and the sanitized full name
as file name; otherwise the category is the sanitized first segment and the
file name is the underscore-joined sanitized remaining segments (`".csv"` is
appended to the returned base name). -/
theorem C1_deck_path :
    (∀ (name : String) (x : List Char),
        splitSep hierSep name.data = [x] →
        deckCsvParts name = ("divers", slugify (String.mk x))) ∧
    (∀ (name : String) (p r : List Char) (rest : List (List Char)),
        splitSep hierSep name.data = p :: r :: rest →
        deckCsvParts name =
          (slugify (String.mk p),
           String.intercalate "_" ((r :: rest).map (fun q => slugify (String.mk q))))) := by
  constructor
  · intro name x hs
    unfold deckCsvParts
    rw [hs]
  · intro name p r rest hs
    unfold deckCsvParts
    rw [hs]

/-- C1 witness: the two deck names of the spec's example, evaluated. -/
theorem C1_deck_path_witness :
    deckCsvParts "Math::Algebra::Linear" = ("math", "algebra_linear") ∧
    deckCsvParts "Vocabulary" = ("divers", "vocabulary") :=
  ⟨(C1_deck_path.2 "Math::Algebra::Linear" "Math".data "Algebra".data ["Linear".data]
      (by decide)).trans (by decide),
   (C1_deck_path.1 "Vocabulary" "Vocabulary".data (by decide)).trans (by decide)⟩

/-! ## C2 — media fetch deduplication -/

/-- C2 counterexample: two successive fetches of the same filename into the
same destination each make a network call when the first one failed (the
collaborator reported the file missing, so nothing was cached on disk). -/
theorem C2_counterexample :
    (retrieve_media_from_anki "a.jpg" "s" "m" .missing .saved fsEmpty).netCall = true ∧
    (retrieve_media_from_anki "a.jpg" "s" "m" .missing .saved
        (retrieve_media_from_anki "a.jpg" "s" "m" .missing .saved fsEmpty).fs).netCall
      = true := by decide

/-- C2 (amended): if the file already exists at the destination the fetcher
returns success immediately with no network call; and after a *successful*
fetch any repeat fetch of the same filename and destination makes no further
network call.  (After a failed fetch nothing is cached and a repeat fetch
does contact the collaborator again.) -/
theorem C2_media_cache :
    (∀ (fn sub base : String) (resp : MediaResp) (save : SaveOutcome) (fs : FS),
        (fs.fileContent (pathJoin (pathJoin base sub) fn)).isSome = true →
        (retrieve_media_from_anki fn sub base resp save fs).ok = true ∧
        (retrieve_media_from_anki fn sub base resp save fs).netCall = false) ∧
    (∀ (fn sub base : String) (r1 r2 : MediaResp) (s1 s2 : SaveOutcome) (fs : FS),
        (retrieve_media_from_anki fn sub base r1 s1 fs).ok = true →
        (retrieve_media_from_anki fn sub base r2 s2
            (retrieve_media_from_anki fn sub base r1 s1 fs).fs).ok = true ∧
        (retrieve_media_from_anki fn sub base r2 s2
            (retrieve_media_from_anki fn sub base r1 s1 fs).fs).netCall = false) := by
  constructor
  · intro fn sub base resp save fs h
    rw [retrieve_cached fn sub base resp save fs h]
    exact ⟨rfl, rfl⟩
  · intro fn sub base r1 r2 s1 s2 fs h
    have hf := retrieve_ok_file fn sub base r1 s1 fs h
    rw [retrieve_cached fn sub base r2 s2 _ hf]
    exact ⟨rfl, rfl⟩

/-- C2 witness: with `m/s/a.jpg` already on disk, a fetch succeeds without a
network call. -/
theorem C2_media_cache_witness :
    (retrieve_media_from_anki "a.jpg" "s" "m" .missing .noSave fsWithA).ok = true ∧
    (retrieve_media_from_anki "a.jpg" "s" "m" .missing .noSave fsWithA).netCall = false :=
  C2_media_cache.1 "a.jpg" "s" "m" .missing .noSave fsWithA (by decide)

/-! ## C3 — per-note failure handling -/

/-- C3 counterexample: exporting a deck whose second of three notes is
malformed yields count 0 and a CSV holding only the first note's row; the
third, well-formed, note is neither serialized nor counted, so the remaining
notes of the deck are not exported as the claim states. -/
theorem C3_counterexample :
    (export_deck "Deck" "out" "media" envC3 fsEmpty).1 = DeckResult.count 0 ∧
    (export_deck "Deck" "out" "media" envC3 fsEmpty).1 ≠ DeckResult.count 2 ∧
    (export_deck "Deck" "out" "media" envC3 fsEmpty).2.fileContent
        (deckCsvPath "Deck" "out") = some (contentWithBom (csvRow ["Q1", ""])) := by
  decide

/-- C3 (amended): a failure while processing an individual note aborts the
remainder of that deck's serialization — `export_deck` catches it and
returns 0 (rows already written remain in the file) — but it does not raise
past the deck boundary: with no directory-creation failure the driver loop
always completes (no exception escapes any `export_deck` call). -/
theorem C3_note_failure :
    (∀ (deck out media : String) (env : DeckEnv) (fs : FS) (ids : List Nat)
        (notes : List NoteInfo),
        env.findNotesResp = AnkiResp.ok ids → ids ≠ [] →
        env.notesInfoResp = AnkiResp.ok notes →
        env.mkdirFails = false → env.openFails = false →
        (∃ bad ∈ notes, noteOk bad = false) →
        (export_deck deck out media env fs).1 = DeckResult.count 0) ∧
    (∀ (out media : String) (envOf : String → DeckEnv) (decks : List String) (fs : FS),
        (∀ d ∈ decks, (envOf d).mkdirFails = false) →
        ((runDecks out media envOf decks fs).1).isSome = true) := by
  constructor
  · intro deck out media env fs ids notes h1 h2 h3 h4 h5 hbad
    rw [export_deck_run deck out media env fs ids notes h1 h2 h3 h4 h5]
    simp only
    have hfalse : (writeNotes (mediaSubfolderOf deck) media env notes
        (mkdirFS (pathJoin out (deckCsvParts deck).1) fs)).1 = false := by
      cases hw : (writeNotes (mediaSubfolderOf deck) media env notes
          (mkdirFS (pathJoin out (deckCsvParts deck).1) fs)).1 with
      | false => rfl
      | true =>
        obtain ⟨bad, hmem, hno⟩ := hbad
        have := writeNotes_true_imp (mediaSubfolderOf deck) media env notes
          (mkdirFS (pathJoin out (deckCsvParts deck).1) fs) hw bad hmem
        rw [this] at hno
        exact absurd hno (by simp)
    rw [if_neg (by simp [hfalse])]
  · exact fun out media envOf decks fs h => runDecks_some out media envOf decks fs h

/-- C3 witness: the amended statement applied to the concrete three-note
deck with a malformed middle note. -/
theorem C3_note_failure_witness :
    (export_deck "Deck2" "out" "media" envC3 fsEmpty).1 = DeckResult.count 0 :=
  C3_note_failure.1 "Deck2" "out" "media" envC3 fsEmpty [1, 2, 3]
    [noteGood1, noteBad, noteGood2] rfl (by decide) rfl rfl rfl
    ⟨noteBad, by decide, by decide⟩

/-! ## C4 — filesystem error containment -/

/-- C4 counterexample: deck "A"'s category-directory creation fails, the
exception escapes `export_deck` and kills the whole run (`none`), and deck
"B" — still selected — is never exported: no CSV appears at its path. -/
theorem C4_counterexample :
    (runDecks "out" "media" envABMap ["A", "B"] fsEmpty).1 = none ∧
    (runDecks "out" "media" envABMap ["A", "B"] fsEmpty).2.fileContent
        (deckCsvPath "B" "out") = none := by decide

/-- C4 (amended): a CSV `open`/write failure is fatal only to that deck —
`export_deck` returns 0 and the driver continues with the remaining decks —
but a category-directory creation failure raises past `export_deck`'s
boundary (`os.makedirs(matiere_dir)` sits outside the `try`) and aborts the
whole run; the remaining selected decks are not exported. -/
theorem C4_fs_error :
    (∀ (deck out media : String) (env : DeckEnv) (fs : FS) (ids : List Nat)
        (notes : List NoteInfo),
        env.findNotesResp = AnkiResp.ok ids → ids ≠ [] →
        env.notesInfoResp = AnkiResp.ok notes →
        env.mkdirFails = false → env.openFails = true →
        (export_deck deck out media env fs).1 = DeckResult.count 0) ∧
    (∀ (deck out media : String) (env : DeckEnv) (fs : FS) (ids : List Nat)
        (notes : List NoteInfo),
        env.findNotesResp = AnkiResp.ok ids → ids ≠ [] →
        env.notesInfoResp = AnkiResp.ok notes →
        env.mkdirFails = true →
        export_deck deck out media env fs = (DeckResult.raised, fs)) ∧
    (∀ (out media : String) (envOf : String → DeckEnv) (d : String)
        (rest : List String) (fs fs1 : FS),
        export_deck d out media (envOf d) fs = (DeckResult.raised, fs1) →
        runDecks out media envOf (d :: rest) fs = (none, fs1)) ∧
    (∀ (out media : String) (envOf : String → DeckEnv) (d : String)
        (rest : List String) (fs fs1 : FS) (n : Nat),
        export_deck d out media (envOf d) fs = (DeckResult.count n, fs1) →
        (runDecks out media envOf (d :: rest) fs).1 =
          Option.map (fun t => n + t) (runDecks out media envOf rest fs1).1) := by
  refine ⟨?_, ?_, ?_, ?_⟩
  · intro deck out media env fs ids notes h1 h2 h3 h4 h5
    rw [export_deck_open_fail deck out media env fs ids notes h1 h2 h3 h4 h5]
  · intro deck out media env fs ids notes h1 h2 h3 h4
    exact export_deck_mkdir_fail deck out media env fs ids notes h1 h2 h3 h4
  · intro out media envOf d rest fs fs1 h
    simp only [runDecks, h]
  · intro out media envOf d rest fs fs1 n h
    simp only [runDecks, h]
    rcases hr : runDecks out media envOf rest fs1 with ⟨o, fs2⟩
    cases o with
    | none => rfl
    | some t => rfl

/-- C4 witness: the contained `open` failure and the escaping `makedirs`
failure, both on concrete decks. -/
theorem C4_fs_error_witness :
    (export_deck "Deck3" "out" "media" envOpen fsEmpty).1 = DeckResult.count 0 ∧
    export_deck "Deck4" "out" "media" envMkdir fsEmpty = (DeckResult.raised, fsEmpty) :=
  ⟨C4_fs_error.1 "Deck3" "out" "media" envOpen fsEmpty [1] [noteGood1]
      rfl (by decide) rfl rfl rfl,
   C4_fs_error.2.1 "Deck4" "out" "media" envMkdir fsEmpty [1] [noteGood1]
      rfl (by decide) rfl rfl⟩

/-! ## C5 — the content rewriter -/

/-- C5 counterexample: a single-quoted occurrence is rewritten *keeping* its
single quotes (anki_companion.py line 92), not to the double-quoted form
`src="../media/..."` the claim states. -/
theorem C5_counterexample :
    (process_media_in_text "<img src=\x27photo.jpg\x27>" "pics" "m" oracleMissing
        fsEmpty).1 = "<img src=\x27../media/pics/photo.jpg\x27>" ∧
    (process_media_in_text "<img src=\x27photo.jpg\x27>" "pics" "m" oracleMissing
        fsEmpty).1 ≠ "<img src=\"../media/pics/photo.jpg\">" := by decide

/-- C5 (amended): the rewritten fragment never depends on the filesystem or
the fetch outcomes (so failed fetches are rewritten exactly like successful
ones); a fragment with no image-src match is returned unchanged; and every
occurrence is rewritten with its own quote style preserved:
`src="f"` becomes `src="../media/sub/f"` and `src='f'` becomes
`src='../media/sub/f'`. -/
theorem C5_rewrite :
    (∀ (t sub base1 base2 : String) (o1 o2 : String → MediaResp × SaveOutcome)
        (fs1 fs2 : FS),
        (process_media_in_text t sub base1 o1 fs1).1 =
          (process_media_in_text t sub base2 o2 fs2).1) ∧
    (∀ (t sub base : String) (o : String → MediaResp × SaveOutcome) (fs : FS),
        findallImages t = [] → (process_media_in_text t sub base o fs).1 = t) ∧
    ((process_media_in_text
        "<img src=\"a.jpg\"> <img src=\x27a.jpg\x27> <img src=\"b.txt\">"
        "s" "m" oracleMissing fsEmpty).1 =
      "<img src=\"../media/s/a.jpg\"> <img src=\x27../media/s/a.jpg\x27> <img src=\"b.txt\">") := by
  refine ⟨?_, ?_, by decide⟩
  · intro t sub base1 base2 o1 o2 fs1 fs2
    rw [process_media_text, process_media_text]
  · intro t sub base o fs h
    rw [process_media_text]
    unfold rewriteText
    rw [h]
    rfl

/-- C5 witness: the no-match clause applied to a concrete fragment. -/
theorem C5_rewrite_witness :
    (process_media_in_text "no images here" "s" "m" oracleMissing fsEmpty).1 =
      "no images here" :=
  C5_rewrite.2.1 "no images here" "s" "m" oracleMissing fsEmpty (by decide)

/-! ## C6 — sanitizer idempotence -/

/-- C6: the Name Sanitizer is a total function (hence deterministic and
never failing) and is idempotent for every input string, for any NFKD
decomposition table that fixes ASCII characters (as the real one does). -/
theorem C6_sanitizer_idempotent :
    ∀ nfkd : Char → List Char,
      (∀ c : Char, c.toNat < 128 → nfkd c = [c]) →
      ∀ s : String, slugifyWith nfkd (slugifyWith nfkd s) = slugifyWith nfkd s := by
  intro nfkd hn s
  show String.mk (slugifyL nfkd (slugifyL nfkd s.data)) = String.mk (slugifyL nfkd s.data)
  exact congrArg String.mk (slugifyL_fix nfkd hn _ (slugifyL_chars nfkd s.data))

/-- C6 witness: idempotence at the concrete table and an accented,
punctuated, whitespace-padded input. -/
theorem C6_sanitizer_idempotent_witness :
    slugifyWith nfkdTable (slugifyWith nfkdTable "  Algèbre -- Linéaire!! ") =
      slugifyWith nfkdTable "  Algèbre -- Linéaire!! " :=
  C6_sanitizer_idempotent nfkdTable nfkdTable_ascii "  Algèbre -- Linéaire!! "

/-! ## C7 — deck selection -/

/-- C7: selection "all" or an absent selection selects every deck in order;
an explicit comma-separated index list selects exactly the in-range indices
in the order given, silently dropping out-of-range ones (index 9 among 5
decks); and in general any selection string that parses to an index list
yields exactly the in-range entries, in order, with no error. -/
theorem C7_selection :
    (∀ decks : List String, selectDecks decks none = some decks) ∧
    (∀ decks : List String, selectDecks decks (some "all") = some decks) ∧
    (selectDecks ["d0", "d1", "d2", "d3", "d4"] (some "1,3,9") = some ["d1", "d3"]) ∧
    (∀ (decks : List String) (sel : String) (ns : List Int),
        (stripList sel.data).map toLowerAscii ≠ "all".data →
        (splitSep [','] ((stripList sel.data).map toLowerAscii)).mapM parsePyIntL =
          some ns →
        selectDecks decks (some sel) =
          some (ns.filterMap (fun i =>
            if 0 ≤ i && i < (decks.length : Int) then decks[i.toNat]? else none))) := by
  refine ⟨fun _ => rfl, fun _ => rfl, by decide, ?_⟩
  intro decks sel ns hne hp
  simp only [selectDecks]
  rw [if_neg hne, hp]

/-- C7 witness: the general clause applied to a concrete padded selection
with an out-of-range index. -/
theorem C7_selection_witness :
    selectDecks ["a", "b", "c"] (some " 2,0, 7 ") = some ["c", "a"] :=
  (C7_selection.2.2.2 ["a", "b", "c"] " 2,0, 7 " [2, 0, 7]
      (by decide) (by decide)).trans (by decide)

/-! ## C8 — CSV output shape -/

/-- C8: a successful deck export returns the note count and writes (at the
deck's CSV path, overwriting whatever any prior filesystem state held there)
the BOM-prefixed concatenation of one `csvRow` per note — semicolon
delimiter, minimal quoting (see `csvField`), CRLF rows — whose columns are
the note's field values (entity-decoded and media-rewritten, in the
collection-defined field order) followed by one final column equal to the
note's tags joined by single spaces (see `rowOf`). -/
theorem C8_csv_output :
    ∀ (deck out media : String) (env : DeckEnv) (fs : FS) (ids : List Nat)
      (notes : List NoteInfo),
      env.findNotesResp = AnkiResp.ok ids → ids ≠ [] →
      env.notesInfoResp = AnkiResp.ok notes →
      env.mkdirFails = false → env.openFails = false →
      (∀ n ∈ notes, noteOk n = true) →
      (export_deck deck out media env fs).1 = DeckResult.count notes.length ∧
      (export_deck deck out media env fs).2.fileContent (deckCsvPath deck out) =
        some (contentWithBom (rowsContent (mediaSubfolderOf deck) env notes)) := by
  intro deck out media env fs ids notes h1 h2 h3 h4 h5 hok
  rw [export_deck_run deck out media env fs ids notes h1 h2 h3 h4 h5]
  simp only
  obtain ⟨w1, w2, w3⟩ := writeNotes_ok (mediaSubfolderOf deck) media env notes
    (mkdirFS (pathJoin out (deckCsvParts deck).1) fs) hok
  rw [if_pos w1]
  constructor
  · simp [w2]
  · simp [setFile, w3]

/-- C8 witness: the spec's row-integrity example note produces the row
`<b>Q</b>;A;chapter1 review` with CRLF and a BOM. -/
theorem C8_csv_output_witness :
    (export_deck "Deck5" "out" "media" envC8 fsEmpty).1 = DeckResult.count 1 ∧
    (export_deck "Deck5" "out" "media" envC8 fsEmpty).2.fileContent
        (deckCsvPath "Deck5" "out") =
      some (contentWithBom "<b>Q</b>;A;chapter1 review\r\n") := by
  have h := C8_csv_output "Deck5" "out" "media" envC8 fsEmpty [1] [noteQ] rfl
    (by decide) rfl rfl rfl (by decide)
  exact ⟨h.1.trans (by decide), h.2.trans (by decide)⟩

/-! ## C9 — fetcher directory creation and frame -/

/-- C9: every Media Fetcher invocation creates `mediaBaseDir/mediaSubfolder`
(idempotently — the directory set only gains that one entry), so it exists
afterwards whatever the outcome, including cache hits and failures; no file
other than the target path `mediaBaseDir/mediaSubfolder/filename` is
touched, and when the collaborator reports the file missing no file at all
is touched. -/
theorem C9_fetch_frame :
    ∀ (fn sub base : String) (resp : MediaResp) (save : SaveOutcome) (fs : FS),
      ((retrieve_media_from_anki fn sub base resp save fs).fs.dirExists
          (pathJoin base sub) = true) ∧
      (∀ p, (retrieve_media_from_anki fn sub base resp save fs).fs.dirExists p =
          ((p == pathJoin base sub) || fs.dirExists p)) ∧
      (∀ p, p ≠ pathJoin (pathJoin base sub) fn →
          (retrieve_media_from_anki fn sub base resp save fs).fs.fileContent p =
            fs.fileContent p) ∧
      (resp = MediaResp.missing →
        ∀ p, (retrieve_media_from_anki fn sub base resp save fs).fs.fileContent p =
            fs.fileContent p) := by
  intro fn sub base resp save fs
  rcases retrieve_fs_cases fn sub base resp save fs with hfs | ⟨w, hfs⟩ <;>
    rw [hfs] <;>
    refine ⟨by simp [mkdirFS, setFile], fun p => by simp [mkdirFS, setFile], ?_, ?_⟩
  · exact fun p _ => rfl
  · exact fun _ p => rfl
  · intro p hp
    simp only [setFile, mkdirFS]
    rw [if_neg (by simpa using hp)]
  · intro hresp
    rw [hresp] at hfs
    rw [retrieve_fs_missing fn sub base save fs] at hfs
    intro p
    rw [← hfs]
    rfl

/-- C9 witness: concrete failed fetch — the directory exists afterwards and
two unrelated paths are untouched. -/
theorem C9_fetch_frame_witness :
    ((retrieve_media_from_anki "a.jpg" "s" "m" .missing .saved fsEmpty).fs.dirExists
        (pathJoin "m" "s") = true) ∧
    ((retrieve_media_from_anki "a.jpg" "s" "m" .missing .saved fsEmpty).fs.fileContent
        "other.txt" = fsEmpty.fileContent "other.txt") ∧
    ((retrieve_media_from_anki "a.jpg" "s" "m" .missing .saved fsEmpty).fs.fileContent
        "m/s/other.jpg" = fsEmpty.fileContent "m/s/other.jpg") :=
  ⟨(C9_fetch_frame "a.jpg" "s" "m" .missing .saved fsEmpty).1,
   (C9_fetch_frame "a.jpg" "s" "m" .missing .saved fsEmpty).2.2.1 "other.txt" (by decide),
   (C9_fetch_frame "a.jpg" "s" "m" .missing .saved fsEmpty).2.2.2 rfl "m/s/other.jpg"⟩

/-! ## C10 — partial writes survive -/

/-- C10: when note processing fails after some rows were already written,
`export_deck` returns 0 (so the deck contributes nothing to the run total),
yet the partially written CSV — the BOM plus the rows of the notes processed
before the failure — is left on disk, not rolled back or deleted. -/
theorem C10_partial_file :
    ∀ (deck out media : String) (env : DeckEnv) (fs : FS) (ids : List Nat)
      (good : List NoteInfo) (bad : NoteInfo) (tail : List NoteInfo),
      env.findNotesResp = AnkiResp.ok ids → ids ≠ [] →
      env.notesInfoResp = AnkiResp.ok (good ++ bad :: tail) →
      env.mkdirFails = false → env.openFails = false →
      (∀ n ∈ good, noteOk n = true) → noteOk bad = false →
      (export_deck deck out media env fs).1 = DeckResult.count 0 ∧
      (export_deck deck out media env fs).2.fileContent (deckCsvPath deck out) =
        some (contentWithBom (rowsContent (mediaSubfolderOf deck) env good)) ∧
      (runDecks out media (fun _ => env) [deck] fs).1 = some 0 := by
  intro deck out media env fs ids good bad tail h1 h2 h3 h4 h5 hgood hbad
  have hrun := export_deck_run deck out media env fs ids (good ++ bad :: tail)
    h1 h2 h3 h4 h5
  obtain ⟨w1, w2⟩ := writeNotes_fail (mediaSubfolderOf deck) media env bad hbad tail good
    (mkdirFS (pathJoin out (deckCsvParts deck).1) fs) hgood
  obtain ⟨f2, hexp⟩ : ∃ f2, export_deck deck out media env fs = (DeckResult.count 0, f2) :=
    ⟨_, by rw [hrun]; simp only; rw [if_neg (by simp [w1])]⟩
  refine ⟨?_, ?_, ?_⟩
  · rw [hexp]
  · rw [hrun]
    simp only
    rw [if_neg (by simp [w1])]
    simp [setFile, w2]
  · simp only [runDecks, hexp]

/-- C10 witness: the three-note deck with a malformed middle note leaves the
first note's row on disk and returns 0. -/
theorem C10_partial_file_witness :
    (export_deck "Deck6" "out" "media" envC3 fsEmpty).1 = DeckResult.count 0 ∧
    (export_deck "Deck6" "out" "media" envC3 fsEmpty).2.fileContent
        (deckCsvPath "Deck6" "out") = some (contentWithBom "Q1;\r\n") := by
  have h := C10_partial_file "Deck6" "out" "media" envC3 fsEmpty [1, 2, 3]
    [noteGood1] noteBad [noteGood2] rfl (by decide) rfl rfl rfl (by decide) (by decide)
  exact ⟨h.1, h.2.1.trans (by decide)⟩

end AnkiCompanion
